import Mathlib

/-!
Verification of the tile-coverage screenshot analyzer
(`analyze_tile_coverage.py`).

The analyzer loads PNG screenshots, detects near-black pixels, computes the
bounding box of the black area, classifies the box against a fixed UI layout
(header strip and sidebar panel), collects intrusions as issues, sorts them by
black percentage, and reports an overall pass/fail verdict.

Embedding choices:
* an image is a width, a height and a pixel function returning RGB channel
  values as natural numbers (the 0-255 range plays no role in the claims);
* the floating-point percentage is modelled as an exact rational;
* Python strings are compared through their character lists (`String.toList`),
  which matches Python's code-point lexicographic order, suffix test and
  case-insensitive substring test for the ASCII filenames involved;
* the directory handed to `main` is an optional association list of
  file names and images (`none` models a missing directory), and the fatal
  print-and-exit paths are modelled with `Except`.
-/

/-- An RGB pixel; channel values are natural numbers. -/
structure Pixel where
  r : Nat
  g : Nat
  b : Nat
deriving Repr, DecidableEq

/-- An image: a width, a height, and a pixel function indexed row-first
(`pix y x`), matching the numpy row/column order of the script. -/
structure Image where
  width : Nat
  height : Nat
  pix : Nat → Nat → Pixel

/-- A bounding box in inclusive pixel coordinates, `top`/`bottom` rows and
`left`/`right` columns, as produced by `np.argwhere` min/max in
`detect_black_areas`. -/
structure BBox where
  top : Nat
  left : Nat
  bottom : Nat
  right : Nat
deriving Repr, DecidableEq

/-- A UI rectangle as in the `ui_regions` dictionary of
`analyze_ui_regions`. -/
structure Rect where
  top : Nat
  bottom : Nat
  left : Nat
  right : Nat
deriving Repr, DecidableEq

/-- The two expected UI regions of `analyze_ui_regions`. -/
structure UIRegions where
  header : Rect
  sidebar : Rect
deriving Repr, DecidableEq

/-- Result record of `detect_black_areas`: the dictionary returned by the
Python function, with the optional black-region bounding box. -/
structure BlackAreaResult where
  has_black : Bool
  percentage : ℚ
  black_pixels : Nat
  total_pixels : Nat
  black_region : Option BBox

/-- The numpy mask test of line 22 of the script: a pixel is black iff all
three RGB channels are strictly below the threshold. -/
def isBlackPixel (black_threshold : Nat) (p : Pixel) : Bool :=
  decide (p.r < black_threshold) && decide (p.g < black_threshold) &&
    decide (p.b < black_threshold)

/-- The coordinates of the black pixels, row-major, as `np.argwhere` returns
them on the mask of line 22: pairs `(row, column)`. -/
def black_coords (img : Image) (black_threshold : Nat) : List (Nat × Nat) :=
  (List.range img.height).flatMap fun y =>
    (List.range img.width).filterMap fun x =>
      if isBlackPixel black_threshold (img.pix y x) then some (y, x) else none

/-- Translation of `detect_black_areas` (lines 12-53 of the script).
`total_pixels` is `shape[0] * shape[1]`, the black-pixel count is the size of
the mask, the percentage is `(black_pixels / total_pixels) * 100`, and when at
least one black pixel exists the bounding box is the componentwise min/max of
the black coordinates.  The impossible fall-through of the inner
`len(black_coords) > 0` guard is the wildcard match arm. -/
def detect_black_areas (img : Image) (black_threshold : Nat := 10) :
    BlackAreaResult :=
  let total_pixels := img.height * img.width
  let coords := black_coords img black_threshold
  let black_pixels := coords.length
  let black_percentage : ℚ :=
    ((black_pixels : ℚ) / (total_pixels : ℚ)) * 100
  if 0 < black_pixels then
    match (coords.map Prod.fst).min?, (coords.map Prod.snd).min?,
        (coords.map Prod.fst).max?, (coords.map Prod.snd).max? with
    | some t, some l, some b, some r =>
      { has_black := true
        percentage := black_percentage
        black_pixels := black_pixels
        total_pixels := total_pixels
        black_region := some ⟨t, l, b, r⟩ }
    | _, _, _, _ =>
      { has_black := false
        percentage := black_percentage
        black_pixels := black_pixels
        total_pixels := total_pixels
        black_region := none }
  else
    { has_black := false
      percentage := black_percentage
      black_pixels := black_pixels
      total_pixels := total_pixels
      black_region := none }

/-- The errors the run can signal.  `noScreenshotsFound` models the two fatal
print-and-exit-1 paths of `main` (missing directory, no PNG files);
`invalidImage` is the degenerate-image error the specification postulates. -/
inductive AnalysisError where
  | noScreenshotsFound
  | invalidImage
deriving Repr, DecidableEq

/-- The body of `detect_black_areas` raises no exception once the pixel array
exists: numpy turns the 0/0 percentage division into a NaN float with a
runtime warning rather than an error, and no other statement can fail.  This
wrapper records that total behaviour in `Except` form so that the absence of
an error path is itself a stated fact. -/
def detect_black_areas_run (img : Image) (black_threshold : Nat) :
    Except AnalysisError BlackAreaResult :=
  .ok (detect_black_areas img black_threshold)

/-- Translation of `analyze_ui_regions` (lines 55-68): the fixed header strip
and sidebar panel derived from the image dimensions. -/
def analyze_ui_regions (img : Image) : UIRegions × (Nat × Nat) :=
  let width := img.width
  let height := img.height
  ({ header := { top := 0, bottom := 60, left := 0, right := width }
     sidebar := { top := 60, bottom := height, left := 0, right := 200 } },
   (width, height))

/-- The nested intrusion test of `main` (lines 103-109): the flag starts
false and becomes true only when the black region's bottom exceeds the
header's bottom and its right exceeds the sidebar's right. -/
def game_area_black (black_region : BBox) (ui_regions : UIRegions) : Bool :=
  if black_region.bottom > ui_regions.header.bottom then
    if black_region.right > ui_regions.sidebar.right then true
    else false
  else false

/-- An issue appended by `main` (lines 113-118) for a screenshot whose black
region intrudes into the game view. -/
structure Issue where
  file : String
  black_percentage : ℚ
  region : BBox
  severity : String

/-- The per-screenshot body of the loop of `main` (lines 88-122), reduced to
its data flow: detect black areas, and if black is present and the region
intrudes past the UI regions, produce an issue of severity HIGH. -/
def processScreenshot (name : String) (img : Image) : Option Issue :=
  let result := detect_black_areas img
  let ui_regions := (analyze_ui_regions img).1
  if result.has_black then
    match result.black_region with
    | some black_region =>
      if game_area_black black_region ui_regions then
        some { file := name
               black_percentage := result.percentage
               region := black_region
               severity := "HIGH" }
      else none
    | none => none
  else none

/-- The Python suffix test `f.endswith(".png")` of line 78, on character
lists. -/
def isPngName (name : String) : Bool :=
  decide (".png".toList <:+ name.toList)

/-- Line 78 of `main`: keep the PNG entries of the directory listing and sort
them in ascending lexicographic (code-point) filename order.  The directory
is an association list of names and images; Python sorts the names and then
opens each file, which on a real directory (distinct names) is the same as
sorting the pairs by name. -/
def sortedScreenshots (files : List (String × Image)) :
    List (String × Image) :=
  (files.filter fun f => isPngName f.1).mergeSort fun a b =>
    decide (a.1.toList ≤ b.1.toList)

/-- The issues collected by the loop of `main`, in screenshot processing
order. -/
def collectIssues (shots : List (String × Image)) : List Issue :=
  shots.filterMap fun si => processScreenshot si.1 si.2

/-- Line 133 of `main`: the stable sort of the collected issues by
descending black percentage (`reverse=True` on the percentage key). -/
def sortIssues (issues : List Issue) : List Issue :=
  issues.mergeSort fun a b => decide (b.black_percentage ≤ a.black_percentage)

/-- The Python case-insensitive substring test `sub in s.lower()` of lines
146-147, on character lists; the filenames involved are ASCII, where
`Char.toLower` agrees with Python `str.lower`. -/
def nameContains (sub : String) (name : String) : Bool :=
  decide (sub.toList <:+: name.toList.map Char.toLower)

/-- Line 146 of `main`: the issues whose filename contains "edge"
case-insensitively. -/
def edge_issues (issues : List Issue) : List Issue :=
  issues.filter fun i => nameContains "edge" i.file

/-- Line 147 of `main`: the issues whose filename contains "zoom"
case-insensitively. -/
def zoom_issues (issues : List Issue) : List Issue :=
  issues.filter fun i => nameContains "zoom" i.file

/-- The data computed by a completed run of `main`: the final sorted issue
list, the two pattern subsets reported on lines 149-152, and the boolean
returned on line 158 (`len(issues_found) == 0`). -/
structure RunResult where
  issues : List Issue
  edgeIssues : List Issue
  zoomIssues : List Issue
  success : Bool

/-- The analysis phase of `main` (lines 84-158) once screenshots exist:
collect issues over the sorted screenshot list, sort them by descending
percentage, derive the pattern subsets, and compute the success boolean. -/
def runAnalysis (files : List (String × Image)) : RunResult :=
  let screenshots := sortedScreenshots files
  let collected := collectIssues screenshots
  let issues_found := sortIssues collected
  { issues := issues_found
    edgeIssues := edge_issues issues_found
    zoomIssues := zoom_issues issues_found
    success := issues_found.isEmpty }

/-- Translation of `main` (lines 70-158).  A `none` directory models the
missing-directory exit of lines 73-76; an empty PNG listing models the exit
of lines 80-82; otherwise the analysis runs to completion. -/
def mainRun (dir : Option (List (String × Image))) :
    Except AnalysisError RunResult :=
  match dir with
  | none => .error .noScreenshotsFound
  | some files =>
    if (sortedScreenshots files).isEmpty then .error .noScreenshotsFound
    else .ok (runAnalysis files)

/-- The process exit status (lines 169-170 together with the `sys.exit(1)`
calls inside `main`): 1 on a fatal error, otherwise 0 exactly when the run
succeeded. -/
def exit_code (dir : Option (List (String × Image))) : Nat :=
  match mainRun dir with
  | .error _ => 1
  | .ok res => if res.success then 0 else 1

/-- A 1-by-1 all-white image: the simplest screenshot with no black pixels. -/
def allWhiteImage : Image :=
  { width := 1, height := 1, pix := fun _ _ => ⟨255, 255, 255⟩ }

/-- A degenerate zero-by-zero image. -/
def emptyImage : Image :=
  { width := 0, height := 0, pix := fun _ _ => ⟨0, 0, 0⟩ }

/-- An 800-by-600 all-white image, used as a second concrete screenshot. -/
def whiteScreen : Image :=
  { width := 800, height := 600, pix := fun _ _ => ⟨255, 255, 255⟩ }

/-- A 2-by-2 image whose black pixels sit at row 0 column 1 and row 1
column 0, so the bounding box is strictly larger than either pixel. -/
def tinyImage : Image :=
  { width := 2, height := 2
    pix := fun y x =>
      if (y = 0 ∧ x = 1) ∨ (y = 1 ∧ x = 0) then ⟨0, 0, 0⟩
      else ⟨255, 255, 255⟩ }

/-- A 62-by-202 image that is white except for one black pixel at row 61,
column 201: the smallest kind of image whose black bounding box passes both
the header-bottom (60) and sidebar-right (200) thresholds. -/
def intrusionImage : Image :=
  { width := 202, height := 62
    pix := fun y x => if y = 61 ∧ x = 201 then ⟨0, 0, 0⟩ else ⟨255, 255, 255⟩ }

/-- A concrete directory with two intruding screenshots of equal black
percentage. -/
def demoFiles : List (String × Image) :=
  [("a.png", intrusionImage), ("b.png", intrusionImage)]

/-- The issue produced for the first demo screenshot. -/
def issueA : Issue :=
  { file := "a.png"
    black_percentage := (detect_black_areas intrusionImage).percentage
    region := ⟨61, 201, 61, 201⟩
    severity := "HIGH" }

/-- The issue produced for the second demo screenshot; it has the same black
percentage as the first. -/
def issueB : Issue :=
  { file := "b.png"
    black_percentage := (detect_black_areas intrusionImage).percentage
    region := ⟨61, 201, 61, 201⟩
    severity := "HIGH" }

/-- An issue whose filename contains both the "edge" and the "zoom" pattern,
showing the two pattern subsets can overlap. -/
def overlapIssue : Issue :=
  { file := "edge_zoom.png"
    black_percentage := 0
    region := ⟨0, 0, 0, 0⟩
    severity := "HIGH" }

/-! ### Basic lemmas about the embedding -/

/-- Membership in the black-coordinate list is exactly being an in-bounds
black pixel. -/
theorem mem_black_coords {img : Image} {t : Nat} {p : Nat × Nat} :
    p ∈ black_coords img t ↔
      p.1 < img.height ∧ p.2 < img.width ∧
        isBlackPixel t (img.pix p.1 p.2) = true := by
  unfold black_coords
  simp only [List.mem_flatMap, List.mem_filterMap, List.mem_range]
  constructor
  · rintro ⟨y, hy, x, hx, hsome⟩
    by_cases hb : isBlackPixel t (img.pix y x) = true
    · simp only [hb, if_pos] at hsome
      obtain rfl := Option.some.inj hsome
      exact ⟨hy, hx, hb⟩
    · simp [hb] at hsome
  · rintro ⟨hy, hx, hb⟩
    exact ⟨p.1, hy, p.2, hx, by simp [hb]⟩

/-- There are at most `height * width` black coordinates. -/
theorem black_coords_length_le (img : Image) (t : Nat) :
    (black_coords img t).length ≤ img.height * img.width := by
  unfold black_coords
  rw [List.length_flatMap]
  calc (List.map (List.length ∘ fun y => (List.range img.width).filterMap fun x =>
          if isBlackPixel t (img.pix y x) then some (y, x) else none)
          (List.range img.height)).sum
      ≤ (List.map (List.length ∘ fun y => (List.range img.width).filterMap fun x =>
          if isBlackPixel t (img.pix y x) then some (y, x) else none)
          (List.range img.height)).length • img.width := by
        apply List.sum_le_card_nsmul
        intro n hn
        simp only [List.mem_map, Function.comp] at hn
        obtain ⟨y, _, rfl⟩ := hn
        calc ((List.range img.width).filterMap fun x =>
                if isBlackPixel t (img.pix y x) then some (y, x) else none).length
            ≤ (List.range img.width).length := List.length_filterMap_le _ _
          _ = img.width := List.length_range _
    _ = img.height * img.width := by
        simp [List.length_range, smul_eq_mul]

/-- Specification of the minimum of a list of naturals. -/
theorem nat_min?_eq_some_iff {xs : List Nat} {a : Nat} :
    xs.min? = some a ↔ a ∈ xs ∧ ∀ b ∈ xs, a ≤ b :=
  List.min?_eq_some_iff (fun _ => le_refl _) (fun _ _ => min_choice _ _)
    (fun _ _ _ => le_min_iff)

/-- Specification of the maximum of a list of naturals. -/
theorem nat_max?_eq_some_iff {xs : List Nat} {a : Nat} :
    xs.max? = some a ↔ a ∈ xs ∧ ∀ b ∈ xs, b ≤ a :=
  List.max?_eq_some_iff (fun _ => le_refl _) (fun _ _ => max_choice _ _)
    (fun _ _ _ => max_le_iff)

/-- The scalar fields of `detect_black_areas` in terms of the embedding. -/
theorem detect_black_areas_fields (img : Image) (t : Nat) :
    (detect_black_areas img t).black_pixels = (black_coords img t).length ∧
    (detect_black_areas img t).total_pixels = img.height * img.width ∧
    (detect_black_areas img t).percentage =
      (((black_coords img t).length : ℚ) / ((img.height * img.width : Nat) : ℚ)) * 100 := by
  simp only [detect_black_areas]
  split
  · split <;> simp
  · simp

/-- The black flag of the result is set exactly when a black pixel exists. -/
theorem detect_black_areas_has_black_iff (img : Image) (t : Nat) :
    (detect_black_areas img t).has_black = true ↔
      0 < (black_coords img t).length := by
  simp only [detect_black_areas]
  split
  · rename_i hpos
    split
    · simpa using hpos
    · rename_i hmatch
      exfalso
      rcases hm : ((black_coords img t).map Prod.fst).min? with _ | a
      · rw [List.min?_eq_none_iff] at hm
        simp only [List.map_eq_nil_iff] at hm
        simp [hm] at hpos
      · rcases hm2 : ((black_coords img t).map Prod.snd).min? with _ | b
        · rw [List.min?_eq_none_iff] at hm2
          simp only [List.map_eq_nil_iff] at hm2
          simp [hm2] at hpos
        · rcases hm3 : ((black_coords img t).map Prod.fst).max? with _ | c
          · rw [List.max?_eq_none_iff] at hm3
            simp only [List.map_eq_nil_iff] at hm3
            simp [hm3] at hpos
          · rcases hm4 : ((black_coords img t).map Prod.snd).max? with _ | d
            · rw [List.max?_eq_none_iff] at hm4
              simp only [List.map_eq_nil_iff] at hm4
              simp [hm4] at hpos
            · exact hmatch a b c d hm hm2 hm3 hm4
  · rename_i hneg
    simp only [Bool.false_eq_true, false_iff]
    omega

/-- The region is present exactly when a black pixel exists. -/
theorem detect_black_areas_region_isSome_iff (img : Image) (t : Nat) :
    (detect_black_areas img t).black_region.isSome = true ↔
      0 < (black_coords img t).length := by
  constructor
  · intro h
    by_contra hneg
    have hz : (black_coords img t).length = 0 := by omega
    simp only [detect_black_areas, hz] at h
    norm_num at h
  · intro hpos
    simp only [detect_black_areas]
    rw [if_pos hpos]
    rcases hm : ((black_coords img t).map Prod.fst).min? with _ | a
    · rw [List.min?_eq_none_iff, List.map_eq_nil_iff] at hm
      simp [hm] at hpos
    rcases hm2 : ((black_coords img t).map Prod.snd).min? with _ | b
    · rw [List.min?_eq_none_iff, List.map_eq_nil_iff] at hm2
      simp [hm2] at hpos
    rcases hm3 : ((black_coords img t).map Prod.fst).max? with _ | c
    · rw [List.max?_eq_none_iff, List.map_eq_nil_iff] at hm3
      simp [hm3] at hpos
    rcases hm4 : ((black_coords img t).map Prod.snd).max? with _ | d
    · rw [List.max?_eq_none_iff, List.map_eq_nil_iff] at hm4
      simp [hm4] at hpos
    simp

/-- Characterization of the returned bounding box: it is some box exactly
when that box collects the minima and maxima of the black coordinates. -/
theorem detect_black_areas_region_eq_some_iff (img : Image) (t : Nat)
    (box : BBox) :
    (detect_black_areas img t).black_region = some box ↔
      ((black_coords img t).map Prod.fst).min? = some box.top ∧
      ((black_coords img t).map Prod.snd).min? = some box.left ∧
      ((black_coords img t).map Prod.fst).max? = some box.bottom ∧
      ((black_coords img t).map Prod.snd).max? = some box.right := by
  constructor
  · intro h
    have hsome : (detect_black_areas img t).black_region.isSome = true := by
      simp [h]
    have hpos := (detect_black_areas_region_isSome_iff img t).mp hsome
    simp only [detect_black_areas] at h
    rw [if_pos hpos] at h
    rcases hm : ((black_coords img t).map Prod.fst).min? with _ | a
    · rw [List.min?_eq_none_iff, List.map_eq_nil_iff] at hm
      simp [hm] at hpos
    rcases hm2 : ((black_coords img t).map Prod.snd).min? with _ | b
    · rw [List.min?_eq_none_iff, List.map_eq_nil_iff] at hm2
      simp [hm2] at hpos
    rcases hm3 : ((black_coords img t).map Prod.fst).max? with _ | c
    · rw [List.max?_eq_none_iff, List.map_eq_nil_iff] at hm3
      simp [hm3] at hpos
    rcases hm4 : ((black_coords img t).map Prod.snd).max? with _ | d
    · rw [List.max?_eq_none_iff, List.map_eq_nil_iff] at hm4
      simp [hm4] at hpos
    simp only [hm, hm2, hm3, hm4] at h
    obtain rfl : box = (⟨a, b, c, d⟩ : BBox) := by
      simpa using h.symm
    exact ⟨rfl, rfl, rfl, rfl⟩
  · rintro ⟨hm, hm2, hm3, hm4⟩
    have hpos : 0 < (black_coords img t).length := by
      rcases (nat_min?_eq_some_iff.mp hm).1 with hmem
      have := List.length_pos_of_mem (List.mem_map.mp hmem).choose_spec.1
      omega
    simp only [detect_black_areas]
    rw [if_pos hpos]
    simp [hm, hm2, hm3, hm4]

/-! ### Claims -/

/-- C1: for every black-area bounding box and every image, the intrusion test
flags the box iff its bottom strictly exceeds the header bottom (60) and its
right strictly exceeds the sidebar right (200), where the header is
`{top 0, bottom 60, left 0, right width}` and the sidebar is
`{top 60, bottom height, left 0, right 200}`. -/
theorem intrusion_iff_bottom_and_right (box : BBox) (img : Image) :
    (analyze_ui_regions img).1.header = ⟨0, 60, 0, img.width⟩ ∧
    (analyze_ui_regions img).1.sidebar = ⟨60, img.height, 0, 200⟩ ∧
    (game_area_black box (analyze_ui_regions img).1 = true ↔
      60 < box.bottom ∧ 200 < box.right) := by
  refine ⟨rfl, rfl, ?_⟩
  simp only [game_area_black, analyze_ui_regions]
  by_cases h1 : box.bottom > 60 <;> by_cases h2 : box.right > 200 <;>
    simp [h1, h2]

/-- C8: the intrusion test is monotonic in region size: a box that is not
flagged becomes flagged once its bottom is enlarged past the header boundary
and its right past the sidebar boundary, for the same image dimensions. -/
theorem intrusion_monotone (box : BBox) (img : Image) (b2 r2 : Nat)
    (hflag : game_area_black box (analyze_ui_regions img).1 = false)
    (hb : box.bottom ≤ b2) (hr : box.right ≤ r2)
    (hb2 : 60 < b2) (hr2 : 200 < r2) :
    game_area_black { box with bottom := b2, right := r2 }
      (analyze_ui_regions img).1 = true := by
  simp only [game_area_black, analyze_ui_regions]
  simp [hb2, hr2]

/-- Witness for C8 at a concrete non-intruding box and concrete
enlargement. -/
theorem intrusion_monotone_witness :
    game_area_black ⟨0, 0, 0, 0⟩ (analyze_ui_regions allWhiteImage).1 = false ∧
    game_area_black ⟨0, 0, 61, 201⟩ (analyze_ui_regions allWhiteImage).1 = true :=
  ⟨by decide,
   intrusion_monotone ⟨0, 0, 0, 0⟩ allWhiteImage 61 201 (by decide)
     (by decide) (by decide) (by decide) (by decide)⟩

/-- C10: the intrusion classification depends only on the bottom and right of
the black region; top, left and the (positive) image dimensions have no
effect. -/
theorem intrusion_depends_only_on_bottom_right (r1 r2 : BBox)
    (img1 img2 : Image)
    (hw1 : 0 < img1.width) (hh1 : 0 < img1.height)
    (hw2 : 0 < img2.width) (hh2 : 0 < img2.height)
    (hb : r1.bottom = r2.bottom) (hr : r1.right = r2.right) :
    game_area_black r1 (analyze_ui_regions img1).1 =
      game_area_black r2 (analyze_ui_regions img2).1 := by
  simp only [game_area_black, analyze_ui_regions, hb, hr]

/-- Witness for C10: two boxes agreeing on bottom and right but not on top
and left, over two images of different dimensions. -/
theorem intrusion_depends_only_on_bottom_right_witness :
    game_area_black ⟨5, 7, 100, 300⟩ (analyze_ui_regions allWhiteImage).1 =
      game_area_black ⟨0, 0, 100, 300⟩ (analyze_ui_regions whiteScreen).1 :=
  intrusion_depends_only_on_bottom_right ⟨5, 7, 100, 300⟩ ⟨0, 0, 100, 300⟩
    allWhiteImage whiteScreen (by decide) (by decide) (by decide) (by decide)
    rfl rfl

/-- C4 counterexample: on the zero-by-zero image the code does not fail with
an invalid-image error; it runs to completion (returning ok) even though
`total_pixels` is zero, so the percentage division is reached with a zero
denominator. -/
theorem detect_zero_size_not_an_error :
    detect_black_areas_run emptyImage 10 =
      Except.ok (detect_black_areas emptyImage 10) ∧
    detect_black_areas_run emptyImage 10 ≠
      Except.error AnalysisError.invalidImage ∧
    (detect_black_areas emptyImage 10).total_pixels = 0 := by
  refine ⟨rfl, ?_, rfl⟩
  intro h
  simpa [detect_black_areas_run] using h

/-- C4 (amended): `detect_black_areas` performs no zero-dimension check and
never signals an error; for every image with positive width and height the
percentage denominator `total_pixels` is positive, so the division is
well-defined there. -/
theorem detect_no_error_and_division_defined (img : Image) (t : Nat) :
    detect_black_areas_run img t = Except.ok (detect_black_areas img t) ∧
    (1 ≤ img.width → 1 ≤ img.height →
      0 < (detect_black_areas img t).total_pixels) := by
  refine ⟨rfl, fun hw hh => ?_⟩
  rw [(detect_black_areas_fields img t).2.1]
  exact Nat.mul_pos hh hw

/-- Witness for the amended C4 at the concrete one-pixel white image. -/
theorem detect_no_error_and_division_defined_witness :
    detect_black_areas_run allWhiteImage 10 =
      Except.ok (detect_black_areas allWhiteImage 10) ∧
    0 < (detect_black_areas allWhiteImage 10).total_pixels :=
  ⟨(detect_no_error_and_division_defined allWhiteImage 10).1,
   (detect_no_error_and_division_defined allWhiteImage 10).2 (by decide)
     (by decide)⟩

/-- The black-coordinate list has no duplicates: rows are distinct across the
outer list and columns within a row. -/
theorem black_coords_nodup (img : Image) (t : Nat) :
    (black_coords img t).Nodup := by
  unfold black_coords
  rw [List.nodup_flatMap]
  constructor
  · intro y _
    apply List.Nodup.filterMap ?_ (List.nodup_range _)
    intro a a2 b hb hb2
    by_cases ha : isBlackPixel t (img.pix y a) = true
    · simp only [ha, if_pos, Option.mem_def, Option.some.injEq] at hb
      by_cases ha2 : isBlackPixel t (img.pix y a2) = true
      · simp only [ha2, if_pos, Option.mem_def, Option.some.injEq] at hb2
        exact (Prod.ext_iff.mp (hb.trans hb2.symm)).2
      · simp [ha2] at hb2
    · simp [ha] at hb
  · apply List.Pairwise.imp ?_ (List.nodup_range img.height)
    intro y1 y2 hne p hp1 hp2
    have h1 : p.1 = y1 := by
      obtain ⟨x, _, hx⟩ := List.mem_filterMap.mp hp1
      by_cases hb : isBlackPixel t (img.pix y1 x) = true
      · simp only [hb, if_pos, Option.some.injEq] at hx
        rw [← hx]
      · simp [hb] at hx
    have h2 : p.1 = y2 := by
      obtain ⟨x, _, hx⟩ := List.mem_filterMap.mp hp2
      by_cases hb : isBlackPixel t (img.pix y2 x) = true
      · simp only [hb, if_pos, Option.some.injEq] at hx
        rw [← hx]
      · simp [hb] at hx
    exact hne (h1 ▸ h2)

/-- C2: the region is returned exactly when a black pixel exists, and it is
then the minimal bounding box: it contains every black pixel, each of its
four edges touches a black pixel, its coordinates are ordered, and they stay
within the image bounds. -/
theorem bounding_box_minimal (img : Image) (t : Nat) :
    ((detect_black_areas img t).black_region.isSome = true ↔
      (detect_black_areas img t).has_black = true) ∧
    ((detect_black_areas img t).black_region.isSome = true ↔
      0 < (detect_black_areas img t).black_pixels) ∧
    ∀ box : BBox, (detect_black_areas img t).black_region = some box →
      (∀ y x, y < img.height → x < img.width →
        isBlackPixel t (img.pix y x) = true →
        box.top ≤ y ∧ y ≤ box.bottom ∧ box.left ≤ x ∧ x ≤ box.right) ∧
      (∃ x, x < img.width ∧ isBlackPixel t (img.pix box.top x) = true) ∧
      (∃ x, x < img.width ∧ isBlackPixel t (img.pix box.bottom x) = true) ∧
      (∃ y, y < img.height ∧ isBlackPixel t (img.pix y box.left) = true) ∧
      (∃ y, y < img.height ∧ isBlackPixel t (img.pix y box.right) = true) ∧
      box.top ≤ box.bottom ∧ box.left ≤ box.right ∧
      box.bottom ≤ img.height - 1 ∧ box.right ≤ img.width - 1 := by
  have hpix := (detect_black_areas_fields img t).1
  refine ⟨?_, ?_, ?_⟩
  · rw [detect_black_areas_region_isSome_iff, detect_black_areas_has_black_iff]
  · rw [detect_black_areas_region_isSome_iff, hpix]
  · intro box hbox
    obtain ⟨hmt, hml, hmb, hmr⟩ :=
      (detect_black_areas_region_eq_some_iff img t box).mp hbox
    obtain ⟨htmem, htle⟩ := nat_min?_eq_some_iff.mp hmt
    obtain ⟨hlmem, hlle⟩ := nat_min?_eq_some_iff.mp hml
    obtain ⟨hbmem, hble⟩ := nat_max?_eq_some_iff.mp hmb
    obtain ⟨hrmem, hrle⟩ := nat_max?_eq_some_iff.mp hmr
    obtain ⟨pt, hptmem, hpt⟩ := List.mem_map.mp htmem
    obtain ⟨pl, hplmem, hpl⟩ := List.mem_map.mp hlmem
    obtain ⟨pb, hpbmem, hpb⟩ := List.mem_map.mp hbmem
    obtain ⟨pr, hprmem, hpr⟩ := List.mem_map.mp hrmem
    have hptc := mem_black_coords.mp hptmem
    have hplc := mem_black_coords.mp hplmem
    have hpbc := mem_black_coords.mp hpbmem
    have hprc := mem_black_coords.mp hprmem
    refine ⟨?_, ?_, ?_, ?_, ?_, ?_, ?_, ?_, ?_⟩
    · intro y x hy hx hblack
      have hmem : (y, x) ∈ black_coords img t :=
        mem_black_coords.mpr ⟨hy, hx, hblack⟩
      exact ⟨htle y (List.mem_map.mpr ⟨(y, x), hmem, rfl⟩),
        hble y (List.mem_map.mpr ⟨(y, x), hmem, rfl⟩),
        hlle x (List.mem_map.mpr ⟨(y, x), hmem, rfl⟩),
        hrle x (List.mem_map.mpr ⟨(y, x), hmem, rfl⟩)⟩
    · exact ⟨pt.2, hptc.2.1, hpt ▸ hptc.2.2⟩
    · exact ⟨pb.2, hpbc.2.1, hpb ▸ hpbc.2.2⟩
    · exact ⟨pl.1, hplc.1, hpl ▸ hplc.2.2⟩
    · exact ⟨pr.1, hprc.1, hpr ▸ hprc.2.2⟩
    · exact hble box.top htmem
    · exact hrle box.left hlmem
    · have : box.bottom < img.height := hpb ▸ hpbc.1
      omega
    · have : box.right < img.width := hpr ▸ hprc.2.1
      omega

/-- Witness for C2 on the concrete two-pixel image: the region is present and
the instantiated minimality conclusion holds for its bounding box. -/
theorem bounding_box_minimal_witness :
    ((detect_black_areas tinyImage 10).black_region = some ⟨0, 0, 1, 1⟩) ∧
    ((∀ y x, y < tinyImage.height → x < tinyImage.width →
        isBlackPixel 10 (tinyImage.pix y x) = true →
        (0 : Nat) ≤ y ∧ y ≤ 1 ∧ (0 : Nat) ≤ x ∧ x ≤ 1) ∧
      (∃ x, x < tinyImage.width ∧
        isBlackPixel 10 (tinyImage.pix 0 x) = true) ∧
      (∃ x, x < tinyImage.width ∧
        isBlackPixel 10 (tinyImage.pix 1 x) = true) ∧
      (∃ y, y < tinyImage.height ∧
        isBlackPixel 10 (tinyImage.pix y 0) = true) ∧
      (∃ y, y < tinyImage.height ∧
        isBlackPixel 10 (tinyImage.pix y 1) = true) ∧
      (0 : Nat) ≤ 1 ∧ (0 : Nat) ≤ 1 ∧
      (1 : Nat) ≤ tinyImage.height - 1 ∧ (1 : Nat) ≤ tinyImage.width - 1) :=
  ⟨by decide, (bounding_box_minimal tinyImage 10).2.2 ⟨0, 0, 1, 1⟩ (by decide)⟩

/-- The black-pixel count is the cardinality of the set of in-bounds
coordinates whose pixel is black. -/
theorem black_coords_length_eq_card (img : Image) (t : Nat) :
    (black_coords img t).length =
      ((Finset.range img.height ×ˢ Finset.range img.width).filter
        (fun p : Nat × Nat => isBlackPixel t (img.pix p.1 p.2) = true)).card := by
  rw [← List.toFinset_card_of_nodup (black_coords_nodup img t)]
  congr 1
  ext p
  simp only [List.mem_toFinset, mem_black_coords, Finset.mem_filter,
    Finset.mem_product, Finset.mem_range]
  tauto

/-- C3: the result counts as black exactly the pixels with all three channels
strictly below the threshold, the percentage is 100 times the black count
over the pixel count, it lies between 0 and 100, it vanishes exactly when no
pixel is black, and in that case the black flag is down and the region is
absent.  The positivity hypotheses record that a loaded image has at least
one row and one column. -/
theorem black_pixel_count_and_percentage (img : Image) (t : Nat)
    (hw : 1 ≤ img.width) (hh : 1 ≤ img.height) :
    (detect_black_areas img t).black_pixels =
      ((Finset.range img.height ×ˢ Finset.range img.width).filter
        (fun p : Nat × Nat =>
          (img.pix p.1 p.2).r < t ∧ (img.pix p.1 p.2).g < t ∧
            (img.pix p.1 p.2).b < t)).card ∧
    (detect_black_areas img t).percentage =
      100 * ((detect_black_areas img t).black_pixels : ℚ) /
        ((img.width * img.height : Nat) : ℚ) ∧
    0 ≤ (detect_black_areas img t).percentage ∧
    (detect_black_areas img t).percentage ≤ 100 ∧
    ((detect_black_areas img t).percentage = 0 ↔
      (detect_black_areas img t).black_pixels = 0) ∧
    ((detect_black_areas img t).black_pixels = 0 →
      (detect_black_areas img t).has_black = false ∧
      (detect_black_areas img t).black_region = none) := by
  obtain ⟨hcount, htotal, hpct⟩ := detect_black_areas_fields img t
  have hT0 : (0:ℚ) < ((img.height * img.width : Nat) : ℚ) := by
    exact_mod_cast Nat.mul_pos hh hw
  have hlen_le := black_coords_length_le img t
  refine ⟨?_, ?_, ?_, ?_, ?_, ?_⟩
  · rw [hcount, black_coords_length_eq_card]
    congr 1
    ext p
    simp only [Finset.mem_filter, isBlackPixel, Bool.and_eq_true,
      decide_eq_true_eq]
    tauto
  · rw [hpct, hcount, Nat.mul_comm img.width img.height]
    ring
  · rw [hpct]
    positivity
  · rw [hpct]
    have h2 : ((black_coords img t).length : ℚ) /
        ((img.height * img.width : Nat) : ℚ) ≤ 1 :=
      (div_le_one hT0).mpr (by exact_mod_cast hlen_le)
    linarith [h2]
  · rw [hpct, hcount]
    constructor
    · intro h
      rcases mul_eq_zero.mp h with h2 | h2
      · rcases div_eq_zero_iff.mp h2 with h3 | h3
        · exact_mod_cast h3
        · exact absurd h3 (ne_of_gt hT0)
      · norm_num at h2
    · intro h
      rw [h]
      simp
  · intro h0
    rw [hcount] at h0
    have hb : ¬ (detect_black_areas img t).has_black = true := by
      rw [detect_black_areas_has_black_iff]
      omega
    have hr : ¬ (detect_black_areas img t).black_region.isSome = true := by
      rw [detect_black_areas_region_isSome_iff]
      omega
    exact ⟨Bool.eq_false_iff.mpr hb, Option.not_isSome_iff_eq_none.mp hr⟩

/-- Witness for C3 on the concrete one-pixel white image. -/
theorem black_pixel_count_and_percentage_witness :
    (detect_black_areas allWhiteImage 10).black_pixels =
      ((Finset.range allWhiteImage.height ×ˢ Finset.range allWhiteImage.width).filter
        (fun p : Nat × Nat =>
          (allWhiteImage.pix p.1 p.2).r < 10 ∧ (allWhiteImage.pix p.1 p.2).g < 10 ∧
            (allWhiteImage.pix p.1 p.2).b < 10)).card ∧
    (detect_black_areas allWhiteImage 10).percentage =
      100 * ((detect_black_areas allWhiteImage 10).black_pixels : ℚ) /
        ((allWhiteImage.width * allWhiteImage.height : Nat) : ℚ) ∧
    0 ≤ (detect_black_areas allWhiteImage 10).percentage ∧
    (detect_black_areas allWhiteImage 10).percentage ≤ 100 ∧
    ((detect_black_areas allWhiteImage 10).percentage = 0 ↔
      (detect_black_areas allWhiteImage 10).black_pixels = 0) ∧
    ((detect_black_areas allWhiteImage 10).black_pixels = 0 →
      (detect_black_areas allWhiteImage 10).has_black = false ∧
      (detect_black_areas allWhiteImage 10).black_region = none) :=
  black_pixel_count_and_percentage allWhiteImage 10 (by decide) (by decide)

/-- The boolean filename comparator used on line 78 is transitive. -/
theorem nameLe_trans (a b c : String × Image)
    (h1 : decide (a.1.toList ≤ b.1.toList) = true)
    (h2 : decide (b.1.toList ≤ c.1.toList) = true) :
    decide (a.1.toList ≤ c.1.toList) = true :=
  decide_eq_true (le_trans (of_decide_eq_true h1) (of_decide_eq_true h2))

/-- The boolean filename comparator used on line 78 is total. -/
theorem nameLe_total (a b : String × Image) :
    (decide (a.1.toList ≤ b.1.toList) ||
      decide (b.1.toList ≤ a.1.toList)) = true := by
  simp only [Bool.or_eq_true, decide_eq_true_eq]
  exact le_total a.1.toList b.1.toList

/-- The descending-percentage comparator of line 133 is transitive. -/
theorem issueGe_trans (a b c : Issue)
    (h1 : decide (b.black_percentage ≤ a.black_percentage) = true)
    (h2 : decide (c.black_percentage ≤ b.black_percentage) = true) :
    decide (c.black_percentage ≤ a.black_percentage) = true :=
  decide_eq_true (le_trans (of_decide_eq_true h2) (of_decide_eq_true h1))

/-- The descending-percentage comparator of line 133 is total. -/
theorem issueGe_total (a b : Issue) :
    (decide (b.black_percentage ≤ a.black_percentage) ||
      decide (a.black_percentage ≤ b.black_percentage)) = true := by
  simp only [Bool.or_eq_true, decide_eq_true_eq]
  exact le_total b.black_percentage a.black_percentage

/-- C5: screenshots are processed in ascending lexicographic filename order,
and the final issue list is the collected issue list re-sorted exactly once,
after collection, in non-increasing order of black percentage, with the sort
stable: issues of equal percentage keep their prior relative order. -/
theorem processing_order_and_issue_sort (files : List (String × Image)) :
    (sortedScreenshots files).Pairwise
      (fun a b => a.1.toList ≤ b.1.toList) ∧
    (sortedScreenshots files).Perm
      (files.filter fun f => isPngName f.1) ∧
    (runAnalysis files).issues =
      sortIssues (collectIssues (sortedScreenshots files)) ∧
    (runAnalysis files).issues.Perm
      (collectIssues (sortedScreenshots files)) ∧
    (runAnalysis files).issues.Pairwise
      (fun a b => b.black_percentage ≤ a.black_percentage) ∧
    (∀ a b : Issue, a.black_percentage = b.black_percentage →
      [a, b].Sublist (collectIssues (sortedScreenshots files)) →
      [a, b].Sublist (runAnalysis files).issues) := by
  refine ⟨?_, ?_, rfl, ?_, ?_, ?_⟩
  · have h := @List.sorted_mergeSort (String × Image)
      (fun a b => decide (a.1.toList ≤ b.1.toList))
      nameLe_trans nameLe_total (files.filter fun f => isPngName f.1)
    exact h.imp of_decide_eq_true
  · exact List.mergeSort_perm _ _
  · exact List.mergeSort_perm _ _
  · have h := @List.sorted_mergeSort Issue
      (fun a b => decide (b.black_percentage ≤ a.black_percentage))
      issueGe_trans issueGe_total (collectIssues (sortedScreenshots files))
    exact h.imp of_decide_eq_true
  · intro a b hpct hsub
    exact List.pair_sublist_mergeSort issueGe_trans issueGe_total
      (decide_eq_true (le_of_eq hpct.symm)) hsub

/-- The demo directory is already in filename order, so the screenshot sort
leaves it unchanged. -/
theorem demo_sorted_eq : sortedScreenshots demoFiles = demoFiles := by
  unfold sortedScreenshots
  rw [show (demoFiles.filter fun f => isPngName f.1) = demoFiles from rfl]
  apply List.mergeSort_of_sorted
  simp only [demoFiles, List.pairwise_cons, List.mem_singleton,
    List.not_mem_nil, false_implies, implies_true, List.Pairwise.nil,
    and_true, forall_eq]
  decide

/-- The black coordinates of the intrusion image are its single black
pixel. -/
theorem intrusion_black_coords :
    black_coords intrusionImage 10 = [(61, 201)] := by decide

/-- The intrusion image has black. -/
theorem intrusion_has_black :
    (detect_black_areas intrusionImage 10).has_black = true := by
  rw [detect_black_areas_has_black_iff, intrusion_black_coords]
  simp

/-- The bounding box of the intrusion image is its single black pixel. -/
theorem intrusion_region_eq :
    (detect_black_areas intrusionImage 10).black_region =
      some ⟨61, 201, 61, 201⟩ := by
  rw [detect_black_areas_region_eq_some_iff, intrusion_black_coords]
  exact ⟨rfl, rfl, rfl, rfl⟩

/-- Processing any screenshot of the intrusion image yields an issue carrying
its percentage and bounding box. -/
theorem process_intrusion (name : String) :
    processScreenshot name intrusionImage =
      some { file := name
             black_percentage := (detect_black_areas intrusionImage).percentage
             region := ⟨61, 201, 61, 201⟩
             severity := "HIGH" } := by
  simp only [processScreenshot, intrusion_has_black, intrusion_region_eq,
    if_true, game_area_black, analyze_ui_regions]
  norm_num

/-- Both demo screenshots yield their issue. -/
theorem demo_collect_eq :
    collectIssues (sortedScreenshots demoFiles) = [issueA, issueB] := by
  rw [demo_sorted_eq]
  have h1 := process_intrusion "a.png"
  have h2 := process_intrusion "b.png"
  simp only [collectIssues, demoFiles, List.filterMap_cons, h1, h2,
    List.filterMap_nil]
  rfl

/-- Witness for C5: the two equal-percentage demo issues keep their relative
order in the final sorted issue list. -/
theorem processing_order_and_issue_sort_witness :
    [issueA, issueB].Sublist (runAnalysis demoFiles).issues := by
  refine (processing_order_and_issue_sort demoFiles).2.2.2.2.2 issueA issueB
    rfl ?_
  rw [demo_collect_eq]

/-- Sorting the one-entry white-screenshot directory leaves it unchanged. -/
theorem singlePng_sorted_eq :
    sortedScreenshots [("a.png", allWhiteImage)] =
      [("a.png", allWhiteImage)] := by
  unfold sortedScreenshots
  rw [show ([("a.png", allWhiteImage)].filter fun f => isPngName f.1) =
      [("a.png", allWhiteImage)] from rfl]
  exact List.mergeSort_singleton _

/-- On the one-entry white-screenshot directory the run completes. -/
theorem mainRun_white_ok :
    mainRun (some [("a.png", allWhiteImage)]) =
      Except.ok (runAnalysis [("a.png", allWhiteImage)]) := by
  simp only [mainRun]
  rw [singlePng_sorted_eq]
  rfl

/-- The white run produces no issues. -/
theorem white_issues_eq :
    (runAnalysis [("a.png", allWhiteImage)]).issues = [] := by
  show sortIssues (collectIssues (sortedScreenshots [("a.png", allWhiteImage)])) = []
  rw [singlePng_sorted_eq,
    show collectIssues [("a.png", allWhiteImage)] = [] from rfl]
  exact List.mergeSort_nil

/-- The white run succeeds. -/
theorem white_success_eq :
    (runAnalysis [("a.png", allWhiteImage)]).success = true := by
  show (runAnalysis [("a.png", allWhiteImage)]).issues.isEmpty = true
  rw [white_issues_eq]
  rfl

/-- The white run exits with status zero. -/
theorem exit_code_white :
    exit_code (some [("a.png", allWhiteImage)]) = 0 := by
  unfold exit_code
  rw [mainRun_white_ok]
  simp [white_success_eq]

/-- C6: for every run that completes analysis, the verdict is pass exactly
when the issue list is empty, and the exit status is zero exactly when the
verdict is pass (and one, hence non-zero, otherwise). -/
theorem verdict_and_exit_status (dir : Option (List (String × Image)))
    (res : RunResult) (h : mainRun dir = Except.ok res) :
    (res.success = true ↔ res.issues = []) ∧
    (exit_code dir = 0 ↔ res.success = true) ∧
    (exit_code dir = 1 ↔ res.success = false) := by
  rcases dir with _ | files
  · simp [mainRun] at h
  · by_cases hempty : (sortedScreenshots files).isEmpty = true
    · simp [mainRun, hempty] at h
    · have hok : mainRun (some files) = Except.ok (runAnalysis files) := by
        show (if (sortedScreenshots files).isEmpty = true then
            Except.error AnalysisError.noScreenshotsFound
          else Except.ok (runAnalysis files)) = Except.ok (runAnalysis files)
        rw [Bool.not_eq_true] at hempty
        rw [hempty]
        rfl
      rw [hok] at h
      obtain rfl : runAnalysis files = res := by
        simpa using h
      refine ⟨?_, ?_, ?_⟩
      · show (runAnalysis files).issues.isEmpty = true ↔ _
        exact List.isEmpty_iff
      · unfold exit_code
        rw [hok]
        by_cases hsucc : (runAnalysis files).success = true <;> simp [hsucc]
      · unfold exit_code
        rw [hok]
        by_cases hsucc : (runAnalysis files).success = true <;> simp [hsucc]

/-- Witness for C6: the concrete white run completes, passes, and exits
zero. -/
theorem verdict_and_exit_status_witness :
    ((runAnalysis [("a.png", allWhiteImage)]).success = true ↔
      (runAnalysis [("a.png", allWhiteImage)]).issues = []) ∧
    (exit_code (some [("a.png", allWhiteImage)]) = 0 ↔
      (runAnalysis [("a.png", allWhiteImage)]).success = true) ∧
    (exit_code (some [("a.png", allWhiteImage)]) = 1 ↔
      (runAnalysis [("a.png", allWhiteImage)]).success = false) :=
  verdict_and_exit_status (some [("a.png", allWhiteImage)])
    (runAnalysis [("a.png", allWhiteImage)]) mainRun_white_ok

/-- C7: a missing directory or a directory with no PNG files fails with the
no-screenshots error before any per-file analysis, with exit status 1, which
is distinct from the status 0 of a successful run that found no issues. -/
theorem no_screenshots_error (files : List (String × Image))
    (hf : (files.filter fun f => isPngName f.1) = []) :
    mainRun none = Except.error AnalysisError.noScreenshotsFound ∧
    exit_code none = 1 ∧
    mainRun (some files) = Except.error AnalysisError.noScreenshotsFound ∧
    exit_code (some files) = 1 ∧
    exit_code (some [("a.png", allWhiteImage)]) = 0 := by
  have hsorted : sortedScreenshots files = [] := by
    unfold sortedScreenshots
    rw [hf]
    exact List.mergeSort_nil
  have hmain : mainRun (some files) =
      Except.error AnalysisError.noScreenshotsFound := by
    show (if (sortedScreenshots files).isEmpty = true then
        Except.error AnalysisError.noScreenshotsFound
      else Except.ok (runAnalysis files)) =
        Except.error AnalysisError.noScreenshotsFound
    rw [hsorted]
    rfl
  refine ⟨rfl, rfl, hmain, ?_, exit_code_white⟩
  unfold exit_code
  rw [hmain]

/-- Witness for C7: a directory holding only a non-PNG file. -/
theorem no_screenshots_error_witness :
    mainRun none = Except.error AnalysisError.noScreenshotsFound ∧
    exit_code none = 1 ∧
    mainRun (some [("readme.txt", allWhiteImage)]) =
      Except.error AnalysisError.noScreenshotsFound ∧
    exit_code (some [("readme.txt", allWhiteImage)]) = 1 ∧
    exit_code (some [("a.png", allWhiteImage)]) = 0 :=
  no_screenshots_error [("readme.txt", allWhiteImage)] rfl

/-- C9: the pattern attribution computes exactly the case-insensitive "edge"
and "zoom" filename filters of the final sorted issue list; the two subsets
are sublists of that list and may overlap, and they change neither the issue
list nor the verdict. -/
theorem pattern_attribution (files : List (String × Image)) :
    (runAnalysis files).edgeIssues =
      (runAnalysis files).issues.filter
        (fun i => nameContains "edge" i.file) ∧
    (runAnalysis files).zoomIssues =
      (runAnalysis files).issues.filter
        (fun i => nameContains "zoom" i.file) ∧
    (runAnalysis files).edgeIssues.Sublist (runAnalysis files).issues ∧
    (runAnalysis files).zoomIssues.Sublist (runAnalysis files).issues ∧
    (runAnalysis files).issues =
      sortIssues (collectIssues (sortedScreenshots files)) ∧
    (runAnalysis files).success = (runAnalysis files).issues.isEmpty ∧
    edge_issues [overlapIssue] = [overlapIssue] ∧
    zoom_issues [overlapIssue] = [overlapIssue] :=
  ⟨rfl, rfl, List.filter_sublist _, List.filter_sublist _, rfl, rfl, rfl, rfl⟩
